import Mathlib

/-!
Verification of the data-loading core of the polar-plant dashboard
(`src/main.py`): Unicode-normalized name matching, file location,
the two source loaders (environment CSVs and the growth workbook),
and the site filter.

Strings are modelled as lists of Unicode code points (`UStr`).  The
only Unicode normalization relevant to this program is the Hangul
syllable block, whose canonical decomposition/composition is defined
arithmetically by the Unicode standard (no tables); `nfd`/`nfc` below
implement exactly that algorithmic fragment, and `nfc` is canonical
decomposition followed by canonical composition, as in the standard.
-/

namespace PolarPlant

/-- A Unicode string as a list of code points. -/
abbrev UStr := List Nat

/-! ## Hangul canonical decomposition / composition (Unicode §3.12) -/

def sBase : Nat := 44032
def lBase : Nat := 4352
def vBase : Nat := 4449
def tBase : Nat := 4519
def lCount : Nat := 19
def vCount : Nat := 21
def tCount : Nat := 28
def nCount : Nat := 588
def sCount : Nat := 11172

/-- Leading-consonant jamo. -/
def isLJamo (c : Nat) : Prop := lBase ≤ c ∧ c < lBase + lCount

/-- Vowel jamo. -/
def isVJamo (c : Nat) : Prop := vBase ≤ c ∧ c < vBase + vCount

/-- Trailing-consonant jamo (T index 1..27). -/
def isTJamo (c : Nat) : Prop := tBase < c ∧ c < tBase + tCount

/-- A precomposed LV syllable (trailing part absent). -/
def isLVSyl (c : Nat) : Prop :=
  sBase ≤ c ∧ c < sBase + sCount ∧ (c - sBase) % tCount = 0

instance (c : Nat) : Decidable (isLJamo c) := by unfold isLJamo; infer_instance
instance (c : Nat) : Decidable (isVJamo c) := by unfold isVJamo; infer_instance
instance (c : Nat) : Decidable (isTJamo c) := by unfold isTJamo; infer_instance
instance (c : Nat) : Decidable (isLVSyl c) := by unfold isLVSyl; infer_instance

/-- Canonical decomposition of one code point (Hangul syllables decompose
to their jamo; all other code points are atomic in this fragment). -/
def decomposeChar (c : Nat) : List Nat :=
  if sBase ≤ c ∧ c < sBase + sCount then
    let si := c - sBase
    let l := lBase + si / nCount
    let v := vBase + (si % nCount) / tCount
    let t := si % tCount
    if t = 0 then [l, v] else [l, v, tBase + t]
  else [c]

/-- Canonical decomposition (NFD) of a string. -/
def nfd (s : UStr) : UStr := s.flatMap decomposeChar

/-- Canonical composition pass, carrying the current starter: combine
L+V into an LV syllable and LV+T into an LVT syllable, left to right. -/
def composeRun (st : Nat) : List Nat → List Nat
  | [] => [st]
  | c :: rest =>
    if isLJamo st ∧ isVJamo c then
      composeRun (sBase + ((st - lBase) * vCount + (c - vBase)) * tCount) rest
    else if isLVSyl st ∧ isTJamo c then
      composeRun (st + (c - tBase)) rest
    else st :: composeRun c rest

/-- Canonical composition of a whole string. -/
def hangulCompose : List Nat → List Nat
  | [] => []
  | c :: rest => composeRun c rest

/-- NFC: canonical decomposition followed by canonical composition. -/
def nfc (s : UStr) : UStr := hangulCompose (nfd s)

/-! ## `normalize_str` (src/main.py lines 50-52)

`return unicodedata.normalize('NFC', s) if s else s` — a falsy input
(Python `None` or the empty string) is returned unchanged.  Python's
optional-string domain is modelled as `Option UStr`, `none` standing
for Python `None`. -/

def normalize_str : Option UStr → Option UStr
  | none => none
  | some s => if s = [] then some s else some (nfc s)

/-- The same operation on a value that is statically a string
(every call site inside `find_file`/`load_growth_data` passes a
genuine `str`). -/
def normStr (s : UStr) : UStr := if s = [] then s else nfc s

/-! ## ASCII case folding and whitespace stripping -/

/-- Python `str.lower` restricted to the ASCII range (all extensions and
header names in this program are ASCII). -/
def lowerChar (c : Nat) : Nat := if 65 ≤ c ∧ c ≤ 90 then c + 32 else c

def lowerStr (s : UStr) : UStr := s.map lowerChar

/-- ASCII whitespace, as stripped by `str.strip`. -/
def isSpaceChar (c : Nat) : Bool :=
  c = 32 || c = 9 || c = 10 || c = 11 || c = 12 || c = 13

/-- Python `str.strip`: drop leading and trailing whitespace. -/
def stripStr (s : UStr) : UStr :=
  ((s.dropWhile isSpaceChar).reverse.dropWhile isSpaceChar).reverse

/-- The header cleanup `c.strip().lower()` applied to a column name. -/
def stripLower (s : UStr) : UStr := lowerStr (stripStr s)

/-! ## Site configuration (src/main.py lines 40-45)

`SCHOOL_CONFIG` is a Python dict; iteration order is insertion order,
so it is modelled as a list in source order. -/

structure SiteConfig where
  name : UStr
  ec : ℚ
  color : UStr
  order : Nat
  desc : Option UStr := none
deriving DecidableEq, Repr

/-- 송도고 -/
def songdo : UStr := [49569, 46020, 44256]
/-- 하늘고 -/
def haneul : UStr := [54616, 45720, 44256]
/-- 아라고 -/
def ara : UStr := [50500, 46972, 44256]
/-- 동산고 -/
def dongsan : UStr := [46041, 49328, 44256]

def songdoCfg : SiteConfig :=
  { name := songdo, ec := 1, color := [35, 49, 102, 55, 55, 98, 52], order := 1 }

def haneulCfg : SiteConfig :=
  { name := haneul, ec := 2, color := [35, 50, 99, 97, 48, 50, 99], order := 2,
    desc := some [52572, 51201, 32, 40, 84, 97, 114, 103, 101, 116, 41] }

def araCfg : SiteConfig :=
  { name := ara, ec := 4, color := [35, 102, 102, 55, 102, 48, 101], order := 3 }

def dongsanCfg : SiteConfig :=
  { name := dongsan, ec := 8, color := [35, 100, 54, 50, 55, 50, 56], order := 4 }

def SCHOOL_CONFIG : List SiteConfig := [songdoCfg, haneulCfg, araCfg, dongsanCfg]

/-! ## `find_file` (src/main.py lines 54-69) -/

/-- A directory entry: the filename split into stem and suffix (as
`pathlib` does), plus what reading this file would produce. -/
structure FileEntry (α : Type) where
  stem : UStr
  suffix : UStr
  content : α
deriving DecidableEq, Repr

/-- The per-entry test of `find_file`: extension matches
case-insensitively and the normalized fragment is a substring of the
normalized stem. -/
def fileMatches (partial_name ext : UStr) (f : FileEntry α) : Bool :=
  lowerStr f.suffix == lowerStr ext
    && decide (List.IsInfix (normStr partial_name) (normStr f.stem))

/-- The locator `find_file`: a `none` directory means the directory does not exist;
entries are scanned in listing order and the first match is returned. -/
def find_file (dir : Option (List (FileEntry α))) (partial_name ext : UStr) :
    Option (FileEntry α) :=
  match dir with
  | none => none
  | some entries => entries.find? (fileMatches partial_name ext)

/-! ## Environment loader (src/main.py lines 74-103) -/

/-- One raw CSV data row: the raw cell of the `time` column (only
meaningful when the file has one) plus the remaining cells, which the
loader carries through untouched. -/
structure EnvRawRow where
  time : UStr
  payload : List UStr
deriving DecidableEq, Repr

/-- What `pd.read_csv` yields on a parsable file: headers as written,
plus the data rows. -/
structure EnvCsv where
  columns : List UStr
  rows : List EnvRawRow
deriving DecidableEq, Repr

/-- One row of the merged environment table.  `time = none` means the
file had no `time` column; `time = some none` is the null-time marker
`NaT` produced when `pd.to_datetime(..., errors='coerce')` cannot
parse the cell. -/
structure EnvRow where
  school : UStr
  target_ec : ℚ
  time : Option (Option Nat)
  payload : List UStr
deriving DecidableEq, Repr

/-- The user-visible diagnostics the loaders emit via
`st.warning` / `st.error`. -/
inductive Diag where
  | warnMissing (school : UStr)
  | errLoad (school : UStr) (msg : UStr)
  | errGrowthMissing
  | errGrowth (msg : UStr)
deriving DecidableEq, Repr

/-- "_환경데이터", the environment-file marker appended to a site name. -/
def envMarker : UStr := [95, 54872, 44221, 45936, 51060, 53552]

/-- ".csv" -/
def csvExt : UStr := [46, 99, 115, 118]

/-- "time" -/
def timeKey : UStr := [116, 105, 109, 101]

/-- Lines 86-94: parse the site's CSV, strip/lower-case headers, tag
rows with the site and its target concentration, and coerce the
`time` column (if present) through `parseTime`; an unparsable value
(`parseTime = none`) becomes the null-time marker. -/
def processEnvCsv (cfg : SiteConfig) (parseTime : UStr → Option Nat)
    (csv : EnvCsv) : List EnvRow :=
  let cols := csv.columns.map stripLower
  let hasTime := timeKey ∈ cols
  csv.rows.map fun r =>
    { school := cfg.name, target_ec := cfg.ec,
      time := if hasTime then some (parseTime r.time) else none,
      payload := r.payload }

/-- One iteration of the loop of `load_environment_data`: the rows the
site contributes and the diagnostics it emits. -/
def envSiteStep (dir : Option (List (FileEntry (Except UStr EnvCsv))))
    (parseTime : UStr → Option Nat) (cfg : SiteConfig) :
    List EnvRow × List Diag :=
  match find_file dir (cfg.name ++ envMarker) csvExt with
  | some f =>
    match f.content with
    | .ok csv => (processEnvCsv cfg parseTime csv, [])
    | .error e => ([], [Diag.errLoad cfg.name e])
  | none => ([], [Diag.warnMissing cfg.name])

/-- The loader `load_environment_data`: for each configured site in configuration
order, locate and load its CSV, appending its rows to the accumulator;
missing files warn, parse failures error, and the loop always runs to
completion.  `parseTime` stands for `pd.to_datetime` on a single cell
(`none` = unparsable). -/
def load_environment_data (dir : Option (List (FileEntry (Except UStr EnvCsv))))
    (parseTime : UStr → Option Nat) : List EnvRow × List Diag :=
  SCHOOL_CONFIG.foldl
    (fun acc cfg =>
      let step := envSiteStep dir parseTime cfg
      (acc.1 ++ step.1, acc.2 ++ step.2))
    ([], [])

/-! ## Growth loader (src/main.py lines 105-136) -/

deriving instance DecidableEq for Except

/-- One worksheet: its name and what `pd.read_excel` would yield on it
(rows as opaque cell lists; `error` = reading this sheet raises). -/
structure Sheet where
  name : UStr
  rows : Except UStr (List (List UStr))
deriving DecidableEq, Repr

/-- What `pd.ExcelFile` yields on an openable workbook. -/
structure Workbook where
  sheets : List Sheet
deriving DecidableEq, Repr

/-- One row of the merged growth table. -/
structure GrowthRow where
  school : UStr
  target_ec : ℚ
  payload : List UStr
deriving DecidableEq, Repr

/-- "4개교_생육결과데이터" -/
def growthFragment : UStr :=
  [52, 44060, 44368, 95, 49373, 50977, 44208, 44284, 45936, 51060, 53552]

/-- ".xlsx" -/
def xlsxExt : UStr := [46, 120, 108, 115, 120]

/-- Lines 121-125: the first configured site (in configuration order)
whose name is a substring of the normalized sheet name. -/
def matchSchool (normalizedSheet : UStr) : Option SiteConfig :=
  SCHOOL_CONFIG.find? fun cfg =>
    decide (List.IsInfix cfg.name normalizedSheet)

/-- Lines 128-130: tag a matched sheet's rows with the site. -/
def tagRows (cfg : SiteConfig) (rs : List (List UStr)) : List GrowthRow :=
  rs.map fun r => { school := cfg.name, target_ec := cfg.ec, payload := r }

/-- The rows a single sheet contributes when no exception interrupts
the pass (an unmatched sheet contributes nothing). -/
def sheetRows (s : Sheet) : List GrowthRow :=
  match matchSchool (normStr s.name) with
  | some cfg =>
    match s.rows with
    | .ok rs => tagRows cfg rs
    | .error _ => []
  | none => []

/-- The sheet loop inside the `try` block (lines 117-131): reading a
matched sheet may raise, which aborts the whole pass. -/
def growthLoop : List Sheet → List GrowthRow → Except UStr (List GrowthRow)
  | [], acc => .ok acc
  | s :: rest, acc =>
    match matchSchool (normStr s.name) with
    | some cfg =>
      match s.rows with
      | .ok rs => growthLoop rest (acc ++ tagRows cfg rs)
      | .error e => .error e
    | none => growthLoop rest acc

/-- The loader `load_growth_data`: locate the single workbook, iterate its sheets
in workbook order, match each sheet to a site by substring, and
concatenate; a missing workbook or any exception yields an empty
table plus one error. -/
def load_growth_data (dir : Option (List (FileEntry (Except UStr Workbook)))) :
    List GrowthRow × List Diag :=
  match find_file dir growthFragment xlsxExt with
  | none => ([], [Diag.errGrowthMissing])
  | some f =>
    match f.content with
    | .error e => ([], [Diag.errGrowth e])
    | .ok wb =>
      match growthLoop wb.sheets [] with
      | .ok acc => (acc, [])
      | .error e => ([], [Diag.errGrowth e])

/-! ## Filter (src/main.py lines 159-165) -/

/-- "전체" (the "all" selection) -/
def ALL : UStr := [51204, 52404]

/-- The sidebar filter: a specific school selects its rows, "전체"
leaves the table unchanged.  `sch` projects a row's `school` field
(the same code shape is applied to both merged tables). -/
def filterBySchool (sch : α → UStr) (selected : UStr) (df : List α) : List α :=
  if selected = ALL then df else df.filter fun r => sch r == selected

/-! ## Derived notions used to state the claims -/

/-- Index of a school name in the configuration order. -/
def siteIdx (s : UStr) : Nat := SCHOOL_CONFIG.findIdx fun cfg => cfg.name == s

/-- Rows tagged with an earlier-configured site precede rows tagged
with a later-configured site. -/
def siteOrderedOn (sch : α → UStr) (l : List α) : Prop :=
  List.Pairwise (fun a b => siteIdx (sch a) ≤ siteIdx (sch b)) l

/-- The configured target concentration of a school name. -/
def ecFor (s : UStr) : Option ℚ :=
  (SCHOOL_CONFIG.find? fun cfg => cfg.name == s).map SiteConfig.ec

/-- The `find_file` predicate specialised to one site's environment
CSV search. -/
def envMatches (cfg : SiteConfig) (f : FileEntry (Except UStr EnvCsv)) : Bool :=
  fileMatches (cfg.name ++ envMarker) csvExt f

/-! ## Helper lemmas -/

/-- A search by `List.find?` returns the unique element satisfying the predicate. -/
theorem find?_of_unique {α : Type} (l : List α) (p : α → Bool) (a : α)
    (hmem : a ∈ l) (hp : p a = true) (huniq : ∀ b ∈ l, p b = true → b = a) :
    l.find? p = some a := by
  induction l with
  | nil => cases hmem
  | cons x xs ih =>
    by_cases hx : p x = true
    · have hxa : x = a := huniq x (List.mem_cons_self x xs) hx
      simp [List.find?_cons, hxa, hp]
    · have hax : a ∈ xs := by
        rcases List.mem_cons.mp hmem with h | h
        · exact absurd (h ▸ hp) hx
        · exact h
      have := ih hax (fun b hb hpb => huniq b (List.mem_cons_of_mem x hb) hpb)
      simp [List.find?_cons, hx, this]

/-- A fold that appends per-element row and diagnostic blocks equals
the flat concatenation of the blocks. -/
theorem foldl_append_pairs {α β γ : Type} (l : List α) (f : α → List β × List γ)
    (a : List β) (b : List γ) :
    l.foldl (fun acc x => (acc.1 ++ (f x).1, acc.2 ++ (f x).2)) (a, b)
      = (a ++ l.flatMap fun x => (f x).1, b ++ l.flatMap fun x => (f x).2) := by
  induction l generalizing a b with
  | nil => simp
  | cons x xs ih => simp [List.foldl_cons, ih, List.flatMap_cons]

/-- The environment load is the concatenation, in configuration order,
of the per-site contributions. -/
theorem load_environment_data_eq (dir : Option (List (FileEntry (Except UStr EnvCsv))))
    (pt : UStr → Option Nat) :
    load_environment_data dir pt
      = (SCHOOL_CONFIG.flatMap fun cfg => (envSiteStep dir pt cfg).1,
         SCHOOL_CONFIG.flatMap fun cfg => (envSiteStep dir pt cfg).2) := by
  unfold load_environment_data
  exact foldl_append_pairs SCHOOL_CONFIG (envSiteStep dir pt) [] []

/-- Every row a site's loop iteration contributes is tagged with that
site's name and target concentration. -/
theorem envSiteStep_school (dir : Option (List (FileEntry (Except UStr EnvCsv))))
    (pt : UStr → Option Nat) (cfg : SiteConfig) :
    ∀ r ∈ (envSiteStep dir pt cfg).1, r.school = cfg.name ∧ r.target_ec = cfg.ec := by
  intro r hr
  unfold envSiteStep at hr
  rcases hfind : find_file dir (cfg.name ++ envMarker) csvExt with _ | f
  · rw [hfind] at hr; cases hr
  · rw [hfind] at hr
    obtain ⟨st, sf, ct⟩ := f
    rcases ct with e | csv
    · simp at hr
    · simp only [processEnvCsv, List.mem_map] at hr
      obtain ⟨raw, _, rfl⟩ := hr
      exact ⟨rfl, rfl⟩

/-- When no matched sheet errors, the sheet loop succeeds with the
concatenation, in sheet order, of the per-sheet contributions. -/
theorem growthLoop_ok (sheets : List Sheet)
    (h : ∀ s ∈ sheets, (matchSchool (normStr s.name)).isSome →
          ∃ rs, s.rows = .ok rs) :
    ∀ acc, growthLoop sheets acc = .ok (acc ++ sheets.flatMap sheetRows) := by
  induction sheets with
  | nil => intro acc; simp [growthLoop]
  | cons s rest ih =>
    intro acc
    have hrest : ∀ t ∈ rest, (matchSchool (normStr t.name)).isSome →
        ∃ rs, t.rows = .ok rs :=
      fun t ht => h t (List.mem_cons_of_mem s ht)
    rcases hm : matchSchool (normStr s.name) with _ | cfg
    · have : sheetRows s = [] := by simp [sheetRows, hm]
      simp [growthLoop, hm, ih hrest, List.flatMap_cons, this]
    · obtain ⟨rs, hrs⟩ := h s (List.mem_cons_self s rest) (by simp [hm])
      have : sheetRows s = tagRows cfg rs := by simp [sheetRows, hm, hrs]
      simp [growthLoop, hm, hrs, ih hrest, List.flatMap_cons, this]

/-- If some matched sheet errors, the sheet loop aborts with an error,
whatever had been accumulated. -/
theorem growthLoop_error (sheets : List Sheet)
    (h : ∃ s ∈ sheets, (matchSchool (normStr s.name)).isSome ∧
          ∃ e, s.rows = .error e) :
    ∀ acc, ∃ e, growthLoop sheets acc = .error e := by
  induction sheets with
  | nil => obtain ⟨s, hs, _⟩ := h; cases hs
  | cons s rest ih =>
    intro acc
    obtain ⟨t, ht, htm, e₀, hte⟩ := h
    rcases hm : matchSchool (normStr s.name) with _ | cfg
    · rcases List.mem_cons.mp ht with rfl | ht'
      · rw [hm] at htm; cases htm
      · obtain ⟨e, he⟩ := ih ⟨t, ht', htm, e₀, hte⟩ acc
        exact ⟨e, by simp [growthLoop, hm, he]⟩
    · rcases hr : s.rows with e | rs
      · exact ⟨e, by simp [growthLoop, hm, hr]⟩
      · rcases List.mem_cons.mp ht with rfl | ht'
        · rw [hr] at hte; cases hte
        · obtain ⟨e, he⟩ := ih ⟨t, ht', htm, e₀, hte⟩ (acc ++ tagRows cfg rs)
          exact ⟨e, by simp [growthLoop, hm, hr, he]⟩

/-- Decomposing a single code point never yields the empty string. -/
theorem decomposeChar_ne_nil (c : Nat) : decomposeChar c ≠ [] := by
  unfold decomposeChar
  split
  · dsimp only
    split <;> simp
  · simp

/-- Only the empty string decomposes to the empty string. -/
theorem nfd_eq_nil_iff (s : UStr) : nfd s = [] ↔ s = [] := by
  constructor
  · intro h
    cases s with
    | nil => rfl
    | cons c t =>
      rw [nfd, List.flatMap_cons] at h
      exact absurd (List.append_eq_nil.mp h).1 (decomposeChar_ne_nil c)
  · rintro rfl; rfl

/-- Canonically equivalent strings (equal NFD) have equal NFC. -/
theorem nfc_congr {x y : UStr} (h : nfd x = nfd y) : nfc x = nfc y := by
  unfold nfc; rw [h]

/-- Normalization `normStr` is invariant under canonical equivalence. -/
theorem normStr_congr {x y : UStr} (h : nfd x = nfd y) : normStr x = normStr y := by
  by_cases hx : x = []
  · subst hx
    have : y = [] := (nfd_eq_nil_iff y).mp h.symm
    rw [this]
  · have hy : y ≠ [] := by
      intro hy
      exact hx ((nfd_eq_nil_iff x).mp (by rw [h, hy]; rfl))
    simp [normStr, hx, hy, nfc_congr h]

/-- Two directory entries holding the same visible filename in
different normalization forms. -/
def entryEquiv {α β : Type} (a : FileEntry α) (b : FileEntry β) : Prop :=
  nfd a.stem = nfd b.stem ∧ a.suffix = b.suffix

/-- The `find_file` entry test only sees the normalized stem and the
suffix, so it cannot tell equivalent entries apart. -/
theorem fileMatches_congr {α β : Type} (frag ext : UStr)
    {a : FileEntry α} {b : FileEntry β} (h : entryEquiv a b) :
    fileMatches frag ext a = fileMatches frag ext b := by
  unfold fileMatches
  rw [h.2, normStr_congr h.1]

/-! ## Claims -/

/-- C9: `normalize_str` applies NFC to every present string (for the
empty string the unchanged result coincides with its NFC form), passes
`None` and the empty string through unchanged, and is a total pure
function — no input makes it raise. -/
theorem claim_C9_normalize_applies_nfc :
    (∀ s : UStr, normalize_str (some s) = some (nfc s)) ∧
    normalize_str none = none ∧ normalize_str (some []) = some [] := by
  refine ⟨fun s => ?_, rfl, rfl⟩
  by_cases h : s = []
  · subst h; rfl
  · simp [normalize_str, h]

/-- C8: on canonically equivalent inputs (equal NFD, i.e. composed
vs. decomposed forms of the same visible text) `normalize_str` returns
identical output, and `find_file` run over two directory listings that
store the same visible filenames in different normalization forms
finds the same file (same normalized stem and same suffix, or none in
both). -/
theorem claim_C8_normalization_agnostic :
    (∀ x y : UStr, nfd x = nfd y →
      normalize_str (some x) = normalize_str (some y)) ∧
    (∀ (l₁ : List (FileEntry Unit)) (l₂ : List (FileEntry Unit)),
      List.Forall₂ entryEquiv l₁ l₂ → ∀ frag ext : UStr,
        Option.map (fun f => (nfc f.stem, f.suffix)) (find_file (some l₁) frag ext)
          = Option.map (fun f => (nfc f.stem, f.suffix)) (find_file (some l₂) frag ext)) := by
  constructor
  · intro x y h
    by_cases hx : x = []
    · subst hx
      have : y = [] := (nfd_eq_nil_iff y).mp h.symm
      rw [this]
    · have hy : y ≠ [] := by
        intro hy
        exact hx ((nfd_eq_nil_iff x).mp (by rw [h, hy]; rfl))
      simp [normalize_str, hx, hy, nfc_congr h]
  · intro l₁ l₂ hrel frag ext
    induction hrel with
    | nil => rfl
    | cons hab _ ih =>
      rename_i a b as bs _
      show Option.map _ ((a :: as).find? _) = Option.map _ ((b :: bs).find? _)
      rw [List.find?_cons, List.find?_cons, fileMatches_congr frag ext hab]
      rcases hb : fileMatches frag ext b with _ | _
      · exact ih
      · simp only [Option.map_some']
        rw [nfc_congr hab.1, hab.2]

/-- C4: for a selected configured site the filter is an
order-preserving subset holding exactly the rows whose school field is
the selected site, and the "전체" (all) selection returns the table
unchanged.  Stated for any row type `α` with school projection `sch`,
covering both merged tables. -/
theorem claim_C4_filter_subset {α : Type} (sch : α → UStr) (df : List α) (sel : UStr) :
    (sel ∈ SCHOOL_CONFIG.map SiteConfig.name →
      (filterBySchool sch sel df).Sublist df ∧
      (∀ r ∈ filterBySchool sch sel df, sch r = sel) ∧
      (∀ r ∈ df, sch r = sel → r ∈ filterBySchool sch sel df)) ∧
    filterBySchool sch ALL df = df := by
  constructor
  · intro hsel
    have hne : sel ≠ ALL := by
      rintro rfl
      exact absurd hsel (by decide)
    rw [filterBySchool, if_neg hne]
    refine ⟨List.filter_sublist df, ?_, ?_⟩
    · intro r hr
      have := (List.mem_filter.mp hr).2
      exact eq_of_beq this
    · intro r hr hs
      exact List.mem_filter.mpr ⟨hr, by simp [hs]⟩
  · simp [filterBySchool]

/-- C7: whenever the stripped, lower-cased headers contain `time`,
every loaded row's time field is the coercion `parseTime` of the raw
cell — in particular an unparsable cell (`parseTime = none`) becomes
the null-time marker `some none` — and no cell value can make the row
or the file fail: `processEnvCsv` (the per-file body of
`load_environment_data`) is total and keeps one output row per input
row. -/
theorem claim_C7_time_coerced_to_null (cfg : SiteConfig) (pt : UStr → Option Nat)
    (csv : EnvCsv) (h : timeKey ∈ csv.columns.map stripLower) :
    (∀ i : Nat, ((processEnvCsv cfg pt csv)[i]?).map EnvRow.time
        = (csv.rows[i]?).map fun r => some (pt r.time)) ∧
    (∀ i : Nat, ∀ r, csv.rows[i]? = some r → pt r.time = none →
      ((processEnvCsv cfg pt csv)[i]?).map EnvRow.time = some (some none)) ∧
    (processEnvCsv cfg pt csv).length = csv.rows.length := by
  have hmain : ∀ i : Nat, ((processEnvCsv cfg pt csv)[i]?).map EnvRow.time
      = (csv.rows[i]?).map fun r => some (pt r.time) := by
    intro i
    simp only [processEnvCsv, List.getElem?_map, Option.map_map, h, if_pos]
    rcases csv.rows[i]? with _ | r <;> rfl
  refine ⟨hmain, ?_, by simp [processEnvCsv]⟩
  intro i r hr hnone
  rw [hmain i, hr, Option.map_some', hnone]

/-- A site's loop iteration, when its file is found and parses. -/
theorem envSiteStep_found (dir : Option (List (FileEntry (Except UStr EnvCsv))))
    (pt : UStr → Option Nat) (cfg : SiteConfig) (f : FileEntry (Except UStr EnvCsv))
    (csv : EnvCsv) (hf : find_file dir (cfg.name ++ envMarker) csvExt = some f)
    (hc : f.content = .ok csv) :
    envSiteStep dir pt cfg = (processEnvCsv cfg pt csv, []) := by
  simp [envSiteStep, hf, hc]

/-- A site's loop iteration, when its file is missing. -/
theorem envSiteStep_missing (dir : Option (List (FileEntry (Except UStr EnvCsv))))
    (pt : UStr → Option Nat) (cfg : SiteConfig)
    (hf : find_file dir (cfg.name ++ envMarker) csvExt = none) :
    envSiteStep dir pt cfg = ([], [Diag.warnMissing cfg.name]) := by
  simp [envSiteStep, hf]

/-- Flattening a block function that is empty everywhere except at one
element of a duplicate-free list yields just that element's block. -/
theorem flatMap_eq_single {α β : Type} (l : List α) (m : α) (g : α → List β)
    (hnd : l.Nodup) (hm : m ∈ l) (hz : ∀ x ∈ l, x ≠ m → g x = []) :
    l.flatMap g = g m := by
  induction l with
  | nil => cases hm
  | cons x xs ih =>
    rw [List.flatMap_cons]
    rcases List.mem_cons.mp hm with he | hm'
    · subst he
      have hxs : ∀ y ∈ xs, g y = [] := by
        intro y hy
        have hne : y ≠ m := by
          intro hh
          exact (List.nodup_cons.mp hnd).1 (hh ▸ hy)
        exact hz y (List.mem_cons_of_mem m hy) hne
      have hnil : xs.flatMap g = [] := by
        rw [List.flatMap_eq_nil_iff]; exact hxs
      rw [hnil, List.append_nil]
    · have hx : g x = [] := by
        refine hz x (List.mem_cons_self x xs) ?_
        intro he
        exact (List.nodup_cons.mp hnd).1 (by rw [he]; exact hm')
      rw [hx, List.nil_append]
      exact ih (List.nodup_cons.mp hnd).2 hm' fun y hy => hz y (List.mem_cons_of_mem x hy)

theorem school_names_nodup : (SCHOOL_CONFIG.map SiteConfig.name).Nodup := by decide

theorem school_config_nodup : SCHOOL_CONFIG.Nodup := by decide

/-- Distinct configured sites have distinct names. -/
theorem school_name_inj {a b : SiteConfig} (ha : a ∈ SCHOOL_CONFIG)
    (hb : b ∈ SCHOOL_CONFIG) (h : a.name = b.name) : a = b :=
  List.inj_on_of_nodup_map school_names_nodup ha hb h

/-- Looking up a configured site's name yields its configured
concentration. -/
theorem ecFor_config (cfg : SiteConfig) (h : cfg ∈ SCHOOL_CONFIG) :
    ecFor cfg.name = some cfg.ec := by
  unfold ecFor
  rw [find?_of_unique SCHOOL_CONFIG _ cfg h (by simp)
    (fun b hb hpb => school_name_inj hb h (eq_of_beq hpb))]
  rfl

/-- C5: once the workbook is located, an exception anywhere in the
pass — opening the workbook, or reading any matched sheet even after
earlier sheets were parsed and accumulated — makes `load_growth_data`
return the empty table together with exactly one error diagnostic.
Being a total function it never raises, and the empty first component
shows no partially-filled table escapes. -/
theorem claim_C5_growth_exception_empty (dir : Option (List (FileEntry (Except UStr Workbook))))
    (f : FileEntry (Except UStr Workbook))
    (hf : find_file dir growthFragment xlsxExt = some f)
    (herr : (∃ e, f.content = .error e) ∨
            (∃ wb, f.content = .ok wb ∧ ∃ s ∈ wb.sheets,
              (matchSchool (normStr s.name)).isSome ∧ ∃ e, s.rows = .error e)) :
    (load_growth_data dir).1 = [] ∧
    ∃ e, (load_growth_data dir).2 = [Diag.errGrowth e] := by
  rcases herr with ⟨e, he⟩ | ⟨wb, hwb, hsheet⟩
  · exact ⟨by simp [load_growth_data, hf, he], e,
      by simp [load_growth_data, hf, he]⟩
  · obtain ⟨e, he⟩ := growthLoop_error wb.sheets hsheet []
    exact ⟨by simp [load_growth_data, hf, hwb, he], e,
      by simp [load_growth_data, hf, hwb, he]⟩

/-- C6: with exactly one configured site's file missing and every
other site's file found and parsable, the environment load emits the
missing site's warning as its only diagnostic, and every returned row
belongs to one of the other three sites (it carries a configured name
that is not the missing site's); the loader is total, so it never
raises. -/
theorem claim_C6_env_missing_site (dir : Option (List (FileEntry (Except UStr EnvCsv))))
    (pt : UStr → Option Nat) (m : SiteConfig) (hm : m ∈ SCHOOL_CONFIG)
    (hmiss : find_file dir (m.name ++ envMarker) csvExt = none)
    (hothers : ∀ cfg ∈ SCHOOL_CONFIG, cfg ≠ m →
      ∃ f csv, find_file dir (cfg.name ++ envMarker) csvExt = some f ∧
        f.content = .ok csv) :
    (load_environment_data dir pt).2 = [Diag.warnMissing m.name] ∧
    ∀ r ∈ (load_environment_data dir pt).1,
      r.school ≠ m.name ∧ r.school ∈ SCHOOL_CONFIG.map SiteConfig.name := by
  rw [load_environment_data_eq]
  constructor
  · show SCHOOL_CONFIG.flatMap (fun cfg => (envSiteStep dir pt cfg).2)
        = [Diag.warnMissing m.name]
    rw [flatMap_eq_single SCHOOL_CONFIG m _ school_config_nodup hm ?_,
      envSiteStep_missing dir pt m hmiss]
    intro cfg hcfg hne
    obtain ⟨f, csv, hf, hc⟩ := hothers cfg hcfg hne
    rw [envSiteStep_found dir pt cfg f csv hf hc]
  · intro r hr
    obtain ⟨cfg, hcfg, hrin⟩ := List.mem_flatMap.mp hr
    by_cases hne : cfg = m
    · subst hne
      rw [envSiteStep_missing dir pt cfg hmiss] at hrin
      cases hrin
    · have hsch := (envSiteStep_school dir pt cfg r hrin).1
      constructor
      · intro he
        exact hne (school_name_inj hcfg hm (hsch ▸ he))
      · rw [hsch]
        exact List.mem_map_of_mem SiteConfig.name hcfg

/-- C2: when every configured site has exactly one CSV file matching
its search fragment (`F` names it, `C` its parsed content), the merged
environment table has as many rows as the four files together, and
every row's `target_ec` equals the configured concentration of the
site whose name tags the row. -/
theorem claim_C2_env_full_load (entries : List (FileEntry (Except UStr EnvCsv)))
    (pt : UStr → Option Nat)
    (F : SiteConfig → FileEntry (Except UStr EnvCsv)) (C : SiteConfig → EnvCsv)
    (hmem : ∀ cfg ∈ SCHOOL_CONFIG, F cfg ∈ entries)
    (hmatch : ∀ cfg ∈ SCHOOL_CONFIG, envMatches cfg (F cfg) = true)
    (huniq : ∀ cfg ∈ SCHOOL_CONFIG, ∀ g ∈ entries, envMatches cfg g = true → g = F cfg)
    (hok : ∀ cfg ∈ SCHOOL_CONFIG, (F cfg).content = .ok (C cfg)) :
    (load_environment_data (some entries) pt).1.length
        = (SCHOOL_CONFIG.map fun cfg => (C cfg).rows.length).sum ∧
    ∀ r ∈ (load_environment_data (some entries) pt).1,
      ecFor r.school = some r.target_ec := by
  have hstep : ∀ cfg ∈ SCHOOL_CONFIG,
      envSiteStep (some entries) pt cfg = (processEnvCsv cfg pt (C cfg), []) := by
    intro cfg hcfg
    have hfind : find_file (some entries) (cfg.name ++ envMarker) csvExt
        = some (F cfg) :=
      find?_of_unique entries _ (F cfg) (hmem cfg hcfg) (hmatch cfg hcfg)
        (huniq cfg hcfg)
    exact envSiteStep_found (some entries) pt cfg (F cfg) (C cfg) hfind (hok cfg hcfg)
  rw [load_environment_data_eq]
  constructor
  · show (SCHOOL_CONFIG.flatMap fun cfg => (envSiteStep (some entries) pt cfg).1).length = _
    rw [List.length_flatMap]
    congr 1
    refine List.map_congr_left ?_
    intro cfg hcfg
    rw [Function.comp_apply, hstep cfg hcfg]
    simp [processEnvCsv]
  · intro r hr
    obtain ⟨cfg, hcfg, hrin⟩ := List.mem_flatMap.mp hr
    obtain ⟨hsch, hec⟩ := envSiteStep_school (some entries) pt cfg r hrin
    rw [hsch, hec]
    exact ecFor_config cfg hcfg

/-- Pairwise property of a flattened list, from within-block and
cross-block conditions. -/
theorem pairwise_flatMap {α β : Type} {R : β → β → Prop} (l : List α) (g : α → List β)
    (hin : ∀ x ∈ l, ∀ a ∈ g x, ∀ b ∈ g x, R a b)
    (hcross : List.Pairwise (fun x y => ∀ a ∈ g x, ∀ b ∈ g y, R a b) l) :
    List.Pairwise R (l.flatMap g) := by
  induction l with
  | nil => constructor
  | cons x xs ih =>
    rw [List.flatMap_cons, List.pairwise_append]
    refine ⟨List.pairwise_of_forall_mem_list (hin x (List.mem_cons_self x xs)), ?_, ?_⟩
    · exact ih (fun y hy => hin y (List.mem_cons_of_mem x hy))
        (List.pairwise_cons.mp hcross).2
    · intro a ha b hb
      obtain ⟨y, hy, hby⟩ := List.mem_flatMap.mp hb
      exact (List.pairwise_cons.mp hcross).1 y hy a ha b hby

/-- A successful growth load (workbook found, opened, and every
matched sheet readable) returns the per-sheet contributions
concatenated in workbook sheet order, with no diagnostics. -/
theorem load_growth_data_ok (dir : Option (List (FileEntry (Except UStr Workbook))))
    (f : FileEntry (Except UStr Workbook)) (wb : Workbook)
    (hf : find_file dir growthFragment xlsxExt = some f)
    (hc : f.content = .ok wb)
    (hok : ∀ s ∈ wb.sheets, (matchSchool (normStr s.name)).isSome →
      ∃ rs, s.rows = .ok rs) :
    load_growth_data dir = (wb.sheets.flatMap sheetRows, []) := by
  simp [load_growth_data, hf, hc, growthLoop_ok wb.sheets hok []]

/-- C1 (amended): the environment loader's merged table is ordered by
configured site iteration order — every row of an earlier-configured
site precedes every row of a later-configured one — but the growth
loader's merged table is the concatenation of per-sheet contributions
in *workbook sheet order*, not in configured site order. -/
theorem claim_C1_amended_merge_order :
    (∀ (dir : Option (List (FileEntry (Except UStr EnvCsv)))) (pt : UStr → Option Nat),
      siteOrderedOn EnvRow.school (load_environment_data dir pt).1) ∧
    (∀ (dir : Option (List (FileEntry (Except UStr Workbook))))
      (f : FileEntry (Except UStr Workbook)) (wb : Workbook),
      find_file dir growthFragment xlsxExt = some f → f.content = .ok wb →
      (∀ s ∈ wb.sheets, (matchSchool (normStr s.name)).isSome →
        ∃ rs, s.rows = .ok rs) →
      (load_growth_data dir).1 = wb.sheets.flatMap sheetRows) := by
  constructor
  · intro dir pt
    unfold siteOrderedOn
    have heq := load_environment_data_eq dir pt
    rw [show (load_environment_data dir pt).1
        = SCHOOL_CONFIG.flatMap fun cfg => (envSiteStep dir pt cfg).1 from
      congrArg Prod.fst heq]
    refine pairwise_flatMap SCHOOL_CONFIG _ ?_ ?_
    · intro cfg _ a ha b hb
      rw [(envSiteStep_school dir pt cfg a ha).1, (envSiteStep_school dir pt cfg b hb).1]
    · have hP : List.Pairwise (fun x y : SiteConfig => siteIdx x.name ≤ siteIdx y.name)
          SCHOOL_CONFIG := by decide
      refine hP.imp ?_
      intro x y h a ha b hb
      rw [(envSiteStep_school dir pt x a ha).1, (envSiteStep_school dir pt y b hb).1]
      exact h
  · intro dir f wb hf hc hok
    rw [load_growth_data_ok dir f wb hf hc hok]

/-- The directory state refuting C1 as stated: a well-formed workbook
whose sheets appear in the order 동산고 (configured fourth), 송도고
(configured first). -/
def c1Sheets : List Sheet :=
  [{ name := dongsan, rows := .ok [[[68]]] },
   { name := songdo, rows := .ok [[[83]]] }]

def c1File : FileEntry (Except UStr Workbook) :=
  { stem := growthFragment, suffix := xlsxExt, content := .ok { sheets := c1Sheets } }

def c1Dir : Option (List (FileEntry (Except UStr Workbook))) := some [c1File]

/-- C1 counterexample: on `c1Dir` the growth loader's merged table
puts a 동산고-tagged row (configured later) before a 송도고-tagged row
(configured earlier), so the claimed configured-order property fails
for the growth loader. -/
theorem claim_C1_counterexample :
    ¬ siteOrderedOn GrowthRow.school (load_growth_data c1Dir).1 := by
  have hload : (load_growth_data c1Dir).1 =
      [{ school := dongsan, target_ec := 8, payload := [[68]] },
       { school := songdo, target_ec := 1, payload := [[83]] }] := by decide
  rw [siteOrderedOn, hload]
  intro hp
  have hle := (List.pairwise_cons.mp hp).1
    { school := songdo, target_ec := 1, payload := [[83]] }
    (List.mem_cons_self _ _)
  revert hle
  decide

/-- A search by `List.find?` returns the element at the first position satisfying the
predicate. -/
theorem find?_first {α : Type} (l : List α) (p : α → Bool) :
    ∀ (i : Nat) (hi : i < l.length), p l[i] = true →
    (∀ j (hj : j < i), p (l.get ⟨j, Nat.lt_trans hj hi⟩) = false) →
    l.find? p = some l[i] := by
  induction l with
  | nil => intro i hi; cases (Nat.not_lt_zero i hi)
  | cons x xs ih =>
    intro i hi hp hbefore
    cases i with
    | zero => simp_all [List.find?_cons]
    | succ n =>
      have hx : p x = false := hbefore 0 (Nat.succ_pos n)
      rw [List.find?_cons, hx, List.getElem_cons_succ]
      exact ih n (Nat.lt_of_succ_lt_succ hi) hp
        fun j hj => hbefore (j + 1) (Nat.succ_lt_succ hj)

/-- Example workbook for C3: four sheets named 송도고_데이터, 하늘고,
아라고_2024, 동산고, one row each. -/
def c3Sheets : List Sheet :=
  [{ name := songdo ++ [95, 45936, 51060, 53552], rows := .ok [[[49]]] },
   { name := haneul, rows := .ok [[[50]]] },
   { name := ara ++ [95, 50, 48, 50, 52], rows := .ok [[[51]]] },
   { name := dongsan, rows := .ok [[[52]]] }]

def c3File : FileEntry (Except UStr Workbook) :=
  { stem := growthFragment, suffix := xlsxExt, content := .ok { sheets := c3Sheets } }

def c3Dir : Option (List (FileEntry (Except UStr Workbook))) := some [c3File]

/-- C3: a sheet is assigned to the first configured site whose name is
a substring of the NFC-normalized sheet name (general first-match
law); on the example workbook the four sheets yield rows tagged
송도고, 하늘고, 아라고, 동산고 in turn; and a sheet name containing
two site names goes to the earlier-configured one (하늘고송도고 is
assigned 송도고). -/
theorem claim_C3_sheet_first_match :
    (∀ (ns : UStr) (i : Nat) (hi : i < SCHOOL_CONFIG.length),
      List.IsInfix (SCHOOL_CONFIG[i]).name ns →
      (∀ j (hj : j < i), ¬ List.IsInfix (SCHOOL_CONFIG.get ⟨j, Nat.lt_trans hj hi⟩).name ns) →
      matchSchool ns = some SCHOOL_CONFIG[i]) ∧
    (load_growth_data c3Dir).1.map GrowthRow.school = [songdo, haneul, ara, dongsan] ∧
    matchSchool (normStr (haneul ++ songdo)) = some songdoCfg := by
  refine ⟨?_, by decide, by decide⟩
  intro ns i hi hin hbefore
  unfold matchSchool
  refine find?_first SCHOOL_CONFIG _ i hi (decide_eq_true hin) ?_
  intro j hj
  exact decide_eq_false (hbefore j hj)

/-- Workbook for C10: two distinct sheets whose names both contain
송도고. -/
def c10Sheets : List Sheet :=
  [{ name := songdo ++ [65], rows := .ok [[[65]]] },
   { name := songdo ++ [66], rows := .ok [[[66]]] }]

def c10Wb : Workbook := { sheets := c10Sheets }

def c10File : FileEntry (Except UStr Workbook) :=
  { stem := growthFragment, suffix := xlsxExt, content := .ok c10Wb }

def c10Dir : Option (List (FileEntry (Except UStr Workbook))) := some [c10File]

/-- C10: the growth loader reads every matched sheet — the merged
table's row count is the sum over *all* sheets of their contributions,
with no one-sheet-per-site restriction — and on a workbook whose two
sheets both match 송도고, both sheets' rows appear, each tagged
송도고, with no deduplication. -/
theorem claim_C10_all_matching_sheets_read :
    (∀ (dir : Option (List (FileEntry (Except UStr Workbook))))
      (f : FileEntry (Except UStr Workbook)) (wb : Workbook),
      find_file dir growthFragment xlsxExt = some f → f.content = .ok wb →
      (∀ s ∈ wb.sheets, (matchSchool (normStr s.name)).isSome →
        ∃ rs, s.rows = .ok rs) →
      (load_growth_data dir).1.length
        = (wb.sheets.map fun s => (sheetRows s).length).sum) ∧
    (load_growth_data c10Dir).1
      = [{ school := songdo, target_ec := 1, payload := [[65]] },
         { school := songdo, target_ec := 1, payload := [[66]] }] := by
  refine ⟨?_, by decide⟩
  intro dir f wb hf hc hok
  rw [load_growth_data_ok dir f wb hf hc hok]
  rw [List.length_flatMap]
  rfl

/-! ## Witnesses: the hypotheses of the claims are satisfiable on
concrete directory states -/

/-- A one-row environment CSV with a sole `time` column. -/
def csvA : EnvCsv := { columns := [timeKey], rows := [{ time := [48], payload := [] }] }

/-- A well-formed environment file for one site. -/
def envFileFor (nm : UStr) : FileEntry (Except UStr EnvCsv) :=
  { stem := nm ++ envMarker, suffix := csvExt, content := .ok csvA }

/-- A timestamp parser that can parse nothing. -/
def ptNone : UStr → Option Nat := fun _ => none

theorem claim_C1_amended_merge_order_witness :
    (load_growth_data c1Dir).1 = c1Sheets.flatMap sheetRows :=
  claim_C1_amended_merge_order.2 c1Dir c1File { sheets := c1Sheets } (by decide) rfl
    (by
      intro s hs hm
      fin_cases hs
      · exact ⟨_, rfl⟩
      · exact ⟨_, rfl⟩)

def c2Entries : List (FileEntry (Except UStr EnvCsv)) :=
  [envFileFor songdo, envFileFor haneul, envFileFor ara, envFileFor dongsan]

theorem claim_C2_env_full_load_witness :
    (load_environment_data (some c2Entries) ptNone).1.length
      = (SCHOOL_CONFIG.map fun _ => csvA.rows.length).sum :=
  (claim_C2_env_full_load c2Entries ptNone (fun cfg => envFileFor cfg.name)
    (fun _ => csvA) (by decide) (by decide) (by decide) (by decide)).1

theorem claim_C3_sheet_first_match_witness :
    matchSchool dongsan = some dongsanCfg :=
  claim_C3_sheet_first_match.1 dongsan 3 (by decide) (by decide) (by decide)

theorem claim_C4_filter_subset_witness :
    (filterBySchool id songdo [songdo, haneul]).Sublist [songdo, haneul] :=
  ((claim_C4_filter_subset id [songdo, haneul] songdo).1 (by decide)).1

def c5Sheet : Sheet := { name := songdo, rows := .error [33] }

def c5Wb : Workbook := { sheets := [c5Sheet] }

def c5File : FileEntry (Except UStr Workbook) :=
  { stem := growthFragment, suffix := xlsxExt, content := .ok c5Wb }

def c5Dir : Option (List (FileEntry (Except UStr Workbook))) := some [c5File]

theorem claim_C5_growth_exception_empty_witness :
    (load_growth_data c5Dir).1 = [] :=
  (claim_C5_growth_exception_empty c5Dir c5File (by decide)
    (Or.inr ⟨c5Wb, rfl, c5Sheet, List.mem_cons_self _ _, by decide, [33], rfl⟩)).1

def c6Entries : List (FileEntry (Except UStr EnvCsv)) :=
  [envFileFor haneul, envFileFor ara, envFileFor dongsan]

theorem claim_C6_env_missing_site_witness :
    (load_environment_data (some c6Entries) ptNone).2 = [Diag.warnMissing songdo] :=
  (claim_C6_env_missing_site (some c6Entries) ptNone songdoCfg (by decide) (by decide)
    (by
      intro cfg hcfg hne
      fin_cases hcfg
      · exact absurd rfl hne
      · exact ⟨envFileFor haneul, csvA, by decide, rfl⟩
      · exact ⟨envFileFor ara, csvA, by decide, rfl⟩
      · exact ⟨envFileFor dongsan, csvA, by decide, rfl⟩)).1

theorem claim_C7_time_coerced_to_null_witness :
    ((processEnvCsv songdoCfg ptNone csvA)[0]?).map EnvRow.time = some (some none) :=
  (claim_C7_time_coerced_to_null songdoCfg ptNone csvA (by decide)).2.1 0
    { time := [48], payload := [] } rfl rfl

/-- The visible name 송도고 stored composed on disk. -/
def c8EntryNfc : FileEntry Unit :=
  { stem := [49569, 46020, 44256], suffix := csvExt, content := () }

/-- The same visible name stored decomposed on disk. -/
def c8EntryNfd : FileEntry Unit :=
  { stem := [4361, 4457, 4540, 4355, 4457, 4352, 4457], suffix := csvExt, content := () }

theorem claim_C8_normalization_agnostic_witness :
    normalize_str (some [49569, 46020, 44256])
      = normalize_str (some [4361, 4457, 4540, 4355, 4457, 4352, 4457]) ∧
    Option.map (fun f => (nfc f.stem, f.suffix)) (find_file (some [c8EntryNfc]) songdo csvExt)
      = Option.map (fun f => (nfc f.stem, f.suffix)) (find_file (some [c8EntryNfd]) songdo csvExt) :=
  ⟨claim_C8_normalization_agnostic.1 _ _ (by decide),
   claim_C8_normalization_agnostic.2 [c8EntryNfc] [c8EntryNfd]
     (List.Forall₂.cons (⟨by decide, rfl⟩ : entryEquiv c8EntryNfc c8EntryNfd)
       List.Forall₂.nil) songdo csvExt⟩

theorem claim_C10_all_matching_sheets_read_witness :
    (load_growth_data c10Dir).1.length
      = (c10Wb.sheets.map fun s => (sheetRows s).length).sum :=
  claim_C10_all_matching_sheets_read.1 c10Dir c10File c10Wb (by decide) rfl
    (by
      intro s hs hm
      fin_cases hs
      · exact ⟨_, rfl⟩
      · exact ⟨_, rfl⟩)

end PolarPlant
